import Mathlib

/- Formal model of the Obj3D reference-frame and composition class of
src/src/func/NuevaClase.py: the indexed local-frame coordinate resolution
(get_o_to_d, get_o_to_w, get_o_to_h), origin placement (set_pos_o), child
registration (add_child) and parent synthesis (make_parent), together with
proofs about them. Solids are kept as an abstract term algebra, vectors as
exact rational triples; a Python method that can die on a missing
dictionary key is modelled as returning an Option. -/

/-- Exact three-component vector, the model of FreeCAD.Vector as the class
uses it: the modelled operations are componentwise addition, subtraction
and negation, which are exact over the rationals. -/
structure Vec3 where
  x : Rat
  y : Rat
  z : Rat
deriving DecidableEq, Repr

/-- Zero vector, the constant V0 of fcfun. -/
def V0 : Vec3 := ⟨0, 0, 0⟩

/-- Componentwise vector addition. -/
def Vec3.add (a b : Vec3) : Vec3 := ⟨a.x + b.x, a.y + b.y, a.z + b.z⟩

/-- Componentwise vector subtraction, the model of FreeCAD.Vector.sub. -/
def Vec3.sub (a b : Vec3) : Vec3 := ⟨a.x - b.x, a.y - b.y, a.z - b.z⟩

/-- Componentwise negation, the model of FreeCAD.Vector.negative. -/
def Vec3.negv (a : Vec3) : Vec3 := ⟨-a.x, -a.y, -a.z⟩

instance : Add Vec3 := ⟨Vec3.add⟩
instance : Sub Vec3 := ⟨Vec3.sub⟩
instance : Neg Vec3 := ⟨Vec3.negv⟩

/-- Squared Euclidean length of a vector. -/
def Vec3.normSq (v : Vec3) : Rat := v.x * v.x + v.y * v.y + v.z * v.z

/-- Square root carried to the nonnegative rationals through the natural
floor square root; it is exact on the perfect squares, which covers every
vector length needed below. -/
def ratSqrt (q : Rat) : Rat := (Nat.sqrt q.num.toNat : Rat) / (Nat.sqrt q.den : Rat)

/-- Modelled from the spec: DraftVecUtils.scaleTo, the normalize helper of
the vector backend, whose code is not part of this repository. Per the
spec it returns the input rescaled to the requested length and, given a
zero-length vector, it does not fail but falls back to a fixed vector
carrying the requested length in its first component. The rescaling is
exact whenever the Euclidean length of the input is rational; no theorem
below evaluates the nonzero branch. -/
def scaleTo (v : Vec3) (s : Rat) : Vec3 :=
  if v = V0 then ⟨s, 0, 0⟩
  else ⟨v.x * (s / ratSqrt v.normSq), v.y * (s / ratSqrt v.normSq),
        v.z * (s / ratSqrt v.normSq)⟩

/-- Python dictionary assignment d of key k set to v on an association
list: an existing binding of the key is overwritten in place, a new key is
appended at the end, matching insertion-ordered dictionary semantics. -/
def dinsert {α β : Type} [BEq α] (k : α) (v : β) : List (α × β) → List (α × β)
  | [] => [(k, v)]
  | (a, b) :: l => if k == a then (k, v) :: l else (a, b) :: dinsert k v l

/-- Index map of one axis, the model of the d_o, w_o and h_o dictionaries:
integer indices mapped to offset vectors from the origin. -/
abbrev IndexMap := List (Int × Vec3)

/-- Opaque solid values of the geometry backend, kept as a free term
algebra: primitive solids plus the fuse and cut operators that
make_parent applies; void stands for the empty solid. -/
inductive Shape where
  | void : Shape
  | prim : Nat → Shape
  | fuse : Shape → Shape → Shape
  | cut : Shape → Shape → Shape
deriving DecidableEq, Repr

/-- Modelled from the spec: fcfun.fuseshplist, whose code is not part of
this repository, fuses a list of shapes into one solid, fusing them one by
one; per the spec the union of an empty list is the empty solid. -/
def fuseshplist : List Shape → Shape
  | [] => Shape.void
  | s :: rest => rest.foldl Shape.fuse s

/-- Registration record stored for one child by add_child: the three index
maps and the shape of the child. In Python the record holds references to
the child dictionaries; this by-value record is adequate for every claim
whose scenario does not mutate a child after registration, while the HObj
heap model below captures the reference semantics. -/
structure ChildRecord where
  child_d_o : IndexMap
  child_w_o : IndexMap
  child_h_o : IndexMap
  child_shp : Shape
deriving DecidableEq, Repr

/-- State of one Obj3D instance. Fields that the Python constructor leaves
to subclasses, such as pos, the anchor indices or the centering flags
d0_cen, w0_cen and h0_cen, are plain fields here; functions that model
methods receive the whole state, mirroring self. -/
structure Obj3D where
  d_o : IndexMap
  w_o : IndexMap
  h_o : IndexMap
  dict_child : List (String × ChildRecord)
  dict_child_sum : List (String × ChildRecord)
  dict_child_res : List (String × ChildRecord)
  name : String
  axis_d : Vec3
  axis_w : Vec3
  axis_h : Vec3
  d0_cen : Int
  w0_cen : Int
  h0_cen : Int
  pos_d : Int
  pos_w : Int
  pos_h : Int
  pos : Vec3
  pos_o : Vec3
  pos_o_adjust : Vec3
  shp : Shape
deriving DecidableEq, Repr

/-- Model of the constructor of Obj3D: the state self carries whatever the
calling subclass has already assigned; the constructor resets the index
maps and the child tables, stores the name, normalizes each supplied axis
through scaleTo, installs the default zero entry for each absent axis, and
clears pos_o_adjust, in the order of the source. -/
def obj3D_init (self : Obj3D) (axis_d axis_w axis_h : Option Vec3)
    (name : String) : Obj3D :=
  let st0 := { self with d_o := [], w_o := [], h_o := [],
                         dict_child := [], dict_child_sum := [],
                         dict_child_res := [], name := name }
  let st1 :=
    match axis_h with
    | some ah => { st0 with axis_h := scaleTo ah 1 }
    | none => { st0 with h_o := [((0 : Int), V0)], pos_h := 0, axis_h := V0 }
  let st2 :=
    match axis_d with
    | some ad => { st1 with axis_d := scaleTo ad 1 }
    | none => { st1 with d_o := [((0 : Int), V0)], pos_d := 0, axis_d := V0 }
  let st3 :=
    match axis_w with
    | some aw => { st2 with axis_w := scaleTo aw 1 }
    | none => { st2 with w_o := [((0 : Int), V0)], pos_w := 0, axis_w := V0 }
  { st3 with pos_o_adjust := V0 }

/-- Model of Obj3D.get_o_to_d, the vector from the origin to the point of
depth index pos_d. With d0_cen equal to 1 the axis is centered: an index
at or below zero reads the map at its absolute value, a positive index is
reflected around the entry of index 0. Otherwise the lookup is direct. A
missing key makes the Python method log the error and fall through with no
return value, modelled as none. -/
def get_o_to_d (self : Obj3D) (pos_d : Int) : Option Vec3 :=
  let abs_pos_d := abs pos_d
  if self.d0_cen = 1 then
    if pos_d ≤ 0 then
      self.d_o.lookup abs_pos_d
    else
      match self.d_o.lookup 0, self.d_o.lookup pos_d with
      | some b0, some bp => some (b0 + (b0 - bp))
      | _, _ => none
  else
    self.d_o.lookup pos_d

/-- Model of Obj3D.get_o_to_w, identical to get_o_to_d over the width map
and the w0_cen flag, mirroring the source duplication. -/
def get_o_to_w (self : Obj3D) (pos_w : Int) : Option Vec3 :=
  let abs_pos_w := abs pos_w
  if self.w0_cen = 1 then
    if pos_w ≤ 0 then
      self.w_o.lookup abs_pos_w
    else
      match self.w_o.lookup 0, self.w_o.lookup pos_w with
      | some b0, some bp => some (b0 + (b0 - bp))
      | _, _ => none
  else
    self.w_o.lookup pos_w

/-- Model of Obj3D.get_o_to_h, identical to get_o_to_d over the height map
and the h0_cen flag, mirroring the source duplication. -/
def get_o_to_h (self : Obj3D) (pos_h : Int) : Option Vec3 :=
  let abs_pos_h := abs pos_h
  if self.h0_cen = 1 then
    if pos_h ≤ 0 then
      self.h_o.lookup abs_pos_h
    else
      match self.h_o.lookup 0, self.h_o.lookup pos_h with
      | some b0, some bp => some (b0 + (b0 - bp))
      | _, _ => none
  else
    self.h_o.lookup pos_h

/-- Model of Obj3D.set_pos_o: the three anchor indices are resolved, their
sum negated and added to pos to obtain pos_o; with adjust equal to 1 the
negated sum is also recorded in pos_o_adjust. If any axis resolution came
back empty the Python addition of None dies, modelled as none. -/
def set_pos_o (self : Obj3D) (adjust : Int) : Option Obj3D :=
  match get_o_to_d self self.pos_d, get_o_to_w self self.pos_w,
        get_o_to_h self self.pos_h with
  | some vd, some vw, some vh =>
    let vec_from_pos_o := vd + vw + vh
    let vec_to_pos_o := -vec_from_pos_o
    let s2 := { self with pos_o := self.pos + vec_to_pos_o }
    if adjust = 1 then some { s2 with pos_o_adjust := vec_to_pos_o }
    else some s2
  | _, _, _ => none

/-- Record value that add_child stores for a child. -/
def mkChildRecord (child : Obj3D) : ChildRecord :=
  { child_d_o := child.d_o, child_w_o := child.w_o, child_h_o := child.h_o,
    child_shp := child.shp }

/-- Model of Obj3D.add_child: the record of the child is written under
child_name into the full child table and, depending on child_sum, into the
additive or the subtractive table; an existing binding under the same name
is overwritten. -/
def add_child (self child : Obj3D) (child_sum : Int) (child_name : String) : Obj3D :=
  let s2 := { self with
    dict_child := dinsert child_name (mkChildRecord child) self.dict_child }
  if child_sum = 1 then
    { s2 with dict_child_sum :=
        dinsert child_name (mkChildRecord child) s2.dict_child_sum }
  else
    { s2 with dict_child_res :=
        dinsert child_name (mkChildRecord child) s2.dict_child_res }

/-- Model of Obj3D.get_child: the full table of registered children. -/
def get_child (self : Obj3D) : List (String × ChildRecord) := self.dict_child

/-- Sequencing of optional results: the whole list of values, or none as
soon as one entry is missing, the way the Python loop dies on its first
KeyError. -/
def optMapM {α β : Type} (f : α → Option β) : List α → Option (List β)
  | [] => some []
  | a :: l =>
    match f a, optMapM f l with
    | some b, some bs => some (b :: bs)
    | _, _ => none

/-- Shape recorded in the full child table under one key, the expression
self.dict_child of the key, field child_shp, that make_parent reads. -/
def child_shp_of (self : Obj3D) (key : String) : Option Shape :=
  (self.dict_child.lookup key).map ChildRecord.child_shp

/-- Volumes to fuse: the shapes that make_parent collects by iterating the
keys of the additive table and reading the full child table. -/
def shp_sum_list (self : Obj3D) : Option (List Shape) :=
  optMapM (child_shp_of self) (self.dict_child_sum.map Prod.fst)

/-- Volumes to subtract, collected from the keys of the subtractive table
by reading the full child table. -/
def shp_res_list (self : Obj3D) : Option (List Shape) :=
  optMapM (child_shp_of self) (self.dict_child_res.map Prod.fst)

/-- Model of Obj3D.make_parent: with no registered child, or with the
additive and subtractive tables both empty, nothing happens; otherwise the
fused additive volumes are cut by the fused subtractive volumes and the
result is stored in shp. The none result stands for the KeyError crash of
the Python lookup when a sub-table key is missing from the full table,
which cannot happen in a state built by add_child. The name parameter is
unused, exactly as in the source. -/
def make_parent (self : Obj3D) (name : String) : Option Obj3D :=
  if self.dict_child.length = 0 then some self
  else if self.dict_child_sum.length = 0 ∧ self.dict_child_res.length = 0 then
    some self
  else
    match shp_sum_list self, shp_res_list self with
    | some sums, some ress =>
      some { self with shp := Shape.cut (fuseshplist sums) (fuseshplist ress) }
    | _, _ => none

/-- One registration call against a parent. -/
structure RegOp where
  child : Obj3D
  child_sum : Int
  child_name : String

/-- Replay of a sequence of add_child calls. -/
def applyOps (st : Obj3D) : List RegOp → Obj3D
  | [] => st
  | o :: ops => applyOps (add_child st o.child o.child_sum o.child_name) ops

/-- Key-set invariant of the three child tables: a name is bound in the
full table exactly when it is bound in the additive or the subtractive
table. -/
def KeyInv (st : Obj3D) : Prop :=
  ∀ k : String, (st.dict_child.lookup k).isSome ↔
    ((st.dict_child_sum.lookup k).isSome ∨ (st.dict_child_res.lookup k).isSome)

/-- Registration record as Python actually stores it: the entries named
child_d_o, child_w_o and child_h_o hold references to the live child
dictionaries, not copies; a reference is an address into a store of
dictionaries. The shape is an abstract value the class never mutates. -/
structure ChildRecordRef where
  child_d_o : Nat
  child_w_o : Nat
  child_h_o : Nat
  child_shp : Shape
deriving DecidableEq, Repr

/-- Heap view of an Obj3D restricted to the fields add_child touches: the
three index maps live in a store of address-indexed dictionaries and the
object holds their addresses. -/
structure HObj where
  d_o : Nat
  w_o : Nat
  h_o : Nat
  shp : Shape
  dict_child : List (String × ChildRecordRef)
  dict_child_sum : List (String × ChildRecordRef)
  dict_child_res : List (String × ChildRecordRef)
deriving DecidableEq, Repr

/-- Model of Obj3D.add_child over the heap view: the stored record carries
the addresses of the child maps, mirroring the references the Python
record keeps. -/
def hAddChild (self child : HObj) (child_sum : Int) (child_name : String) : HObj :=
  let cr : ChildRecordRef :=
    { child_d_o := child.d_o, child_w_o := child.w_o, child_h_o := child.h_o,
      child_shp := child.shp }
  let s2 := { self with dict_child := dinsert child_name cr self.dict_child }
  if child_sum = 1 then
    { s2 with dict_child_sum := dinsert child_name cr s2.dict_child_sum }
  else
    { s2 with dict_child_res := dinsert child_name cr s2.dict_child_res }

/-- In-place Python assignment child.d_o of index k set to v, performed on
the store: only the dictionary at address r changes. -/
def setIndex (σ : Nat → IndexMap) (r : Nat) (k : Int) (v : Vec3) : Nat → IndexMap :=
  fun a => if a = r then dinsert k v (σ a) else σ a

/-- Contents of the three maps a registration record refers to, read
through the store. -/
def recordMaps (σ : Nat → IndexMap) (r : ChildRecordRef) :
    IndexMap × IndexMap × IndexMap :=
  (σ r.child_d_o, σ r.child_w_o, σ r.child_h_o)

/-- Test frame state with every field at a neutral value. -/
def baseObj : Obj3D :=
  { d_o := [], w_o := [], h_o := [],
    dict_child := [], dict_child_sum := [], dict_child_res := [],
    name := "", axis_d := V0, axis_w := V0, axis_h := V0,
    d0_cen := 0, w0_cen := 0, h0_cen := 0,
    pos_d := 0, pos_w := 0, pos_h := 0,
    pos := V0, pos_o := V0, pos_o_adjust := V0, shp := Shape.void }

/-- Test frame whose three axes are centered, with entries at the indices
0 and 2 of every map. -/
def cenFrame : Obj3D :=
  { baseObj with
    d0_cen := 1, w0_cen := 1, h0_cen := 1,
    d_o := [((0 : Int), ⟨1, 0, 0⟩), ((2 : Int), ⟨5, 0, 0⟩)],
    w_o := [((0 : Int), ⟨0, 1, 0⟩), ((2 : Int), ⟨0, 5, 0⟩)],
    h_o := [((0 : Int), ⟨0, 0, 1⟩), ((2 : Int), ⟨0, 0, 5⟩)] }

/-- Test frame with only the depth axis centered, the width and height
axes staying in direct mode, holding depth entries at the indices 0
and 2. -/
def mixedFrame : Obj3D :=
  { baseObj with
    d0_cen := 1,
    d_o := [((0 : Int), ⟨1, 0, 0⟩), ((2 : Int), ⟨5, 0, 0⟩)] }

/-- Test frame whose depth map defines exactly the keys 0, 1 and 2 with no
centering, the frame of the concrete scenario of the spec. -/
def sparseFrame : Obj3D :=
  { baseObj with
    d_o := [((0 : Int), V0), ((1 : Int), ⟨2, 0, 0⟩), ((2 : Int), ⟨4, 0, 0⟩)] }

/-- Test frame for origin placement, anchored at the index 0 of every
axis. -/
def anchorFrame : Obj3D :=
  { baseObj with
    d_o := [((0 : Int), ⟨1, 0, 0⟩)],
    w_o := [((0 : Int), ⟨0, 2, 0⟩)],
    h_o := [((0 : Int), ⟨0, 0, 3⟩)],
    pos := ⟨7, 7, 7⟩ }

/-- Test child that contributes volume. -/
def childA : Obj3D :=
  { baseObj with d_o := [((0 : Int), V0)], shp := Shape.prim 1 }

/-- Test child that removes volume. -/
def childB : Obj3D :=
  { baseObj with d_o := [((1 : Int), ⟨1, 0, 0⟩)], shp := Shape.prim 2 }

/-- Test parent with one additive and one subtractive child registered
under distinct names. -/
def twoChildParent : Obj3D :=
  add_child (add_child baseObj childA 1 ("placa")) childB 0 ("hole")

/-- Empty test store of the heap model. -/
def hStore : Nat → IndexMap := fun _ => []

/-- Test child of the heap model, its maps at the addresses 0, 1 and 2. -/
def hChild : HObj :=
  { d_o := 0, w_o := 1, h_o := 2, shp := Shape.prim 0,
    dict_child := [], dict_child_sum := [], dict_child_res := [] }

/-- Test parent of the heap model, its maps at the addresses 3, 4 and 5. -/
def hParent : HObj :=
  { d_o := 3, w_o := 4, h_o := 5, shp := Shape.prim 1,
    dict_child := [], dict_child_sum := [], dict_child_res := [] }

/- Helper lemmas on vectors, dictionaries and optional sequencing. -/

theorem Vec3.add_def (a b : Vec3) :
    a + b = ⟨a.x + b.x, a.y + b.y, a.z + b.z⟩ := rfl

theorem Vec3.sub_def (a b : Vec3) :
    a - b = ⟨a.x - b.x, a.y - b.y, a.z - b.z⟩ := rfl

theorem Vec3.neg_def (a : Vec3) : -a = ⟨-a.x, -a.y, -a.z⟩ := rfl

theorem Vec3.mirror_sum (b c : Vec3) : (b + (b - c)) + c = b + b := by
  simp only [Vec3.add_def, Vec3.sub_def, Vec3.mk.injEq]
  refine ⟨by ring, by ring, by ring⟩

theorem Vec3.add_neg_eq_sub (a b : Vec3) : a + -b = a - b := by
  simp only [Vec3.add_def, Vec3.neg_def, Vec3.sub_def, Vec3.mk.injEq]
  refine ⟨by ring, by ring, by ring⟩

theorem Vec3.add_sub_cancel_left (a b : Vec3) : (a + b) - a = b := by
  obtain ⟨b1, b2, b3⟩ := b
  simp only [Vec3.add_def, Vec3.sub_def, Vec3.mk.injEq]
  refine ⟨by ring, by ring, by ring⟩

theorem Vec3.normSq_eq_zero {v : Vec3} (h : v.normSq = 0) : v = V0 := by
  obtain ⟨a, b, c⟩ := v
  simp only [Vec3.normSq] at h
  have ha : a = 0 := by
    nlinarith [mul_self_nonneg a, mul_self_nonneg b, mul_self_nonneg c]
  have hb : b = 0 := by
    nlinarith [mul_self_nonneg a, mul_self_nonneg b, mul_self_nonneg c]
  have hc : c = 0 := by
    nlinarith [mul_self_nonneg a, mul_self_nonneg b, mul_self_nonneg c]
  simp [V0, ha, hb, hc]

theorem lookup_dinsert_self {α β : Type} [BEq α] [LawfulBEq α] (k : α) (v : β)
    (l : List (α × β)) : (dinsert k v l).lookup k = some v := by
  induction l with
  | nil => simp [dinsert, List.lookup]
  | cons p tl ih =>
    obtain ⟨a, b⟩ := p
    by_cases h : k = a
    · subst h
      simp [dinsert, List.lookup]
    · have hf : (k == a) = false := beq_eq_false_iff_ne.mpr h
      simp [dinsert, List.lookup, hf, ih]

theorem lookup_dinsert_ne {α β : Type} [BEq α] [LawfulBEq α] {k a : α} {v : β}
    {l : List (α × β)} (h : a ≠ k) : (dinsert k v l).lookup a = l.lookup a := by
  have hf : (a == k) = false := beq_eq_false_iff_ne.mpr h
  induction l with
  | nil => simp [dinsert, List.lookup, hf]
  | cons p tl ih =>
    obtain ⟨a0, b0⟩ := p
    by_cases hk : k = a0
    · subst hk
      simp [dinsert, List.lookup, hf]
    · have hf2 : (k == a0) = false := beq_eq_false_iff_ne.mpr hk
      cases hba : a == a0 <;> simp [dinsert, List.lookup, hf2, hba, ih]

theorem lookup_isSome_of_mem_keys {α β : Type} [BEq α] [LawfulBEq α]
    (l : List (α × β)) (k : α) (h : k ∈ l.map Prod.fst) :
    (l.lookup k).isSome := by
  induction l with
  | nil => simp at h
  | cons p tl ih =>
    obtain ⟨a, b⟩ := p
    simp only [List.map_cons, List.mem_cons] at h
    by_cases hk : k = a
    · subst hk
      simp [List.lookup]
    · have hf : (k == a) = false := beq_eq_false_iff_ne.mpr hk
      rcases h with h | h
      · exact absurd h hk
      · simp [List.lookup, hf, ih h]

theorem mem_keys_dinsert_self {α β : Type} [BEq α] [LawfulBEq α] (k : α) (v : β)
    (l : List (α × β)) : k ∈ (dinsert k v l).map Prod.fst := by
  induction l with
  | nil => simp [dinsert]
  | cons p tl ih =>
    obtain ⟨a, b⟩ := p
    by_cases h : k = a
    · subst h
      simp [dinsert]
    · have hf : (k == a) = false := beq_eq_false_iff_ne.mpr h
      simp [dinsert, hf, ih]

theorem optMapM_eq_filterMap {α β : Type} (f : α → Option β) (l : List α)
    (h : ∀ a ∈ l, (f a).isSome) : optMapM f l = some (l.filterMap f) := by
  induction l with
  | nil => rfl
  | cons a tl ih =>
    obtain ⟨b, hb⟩ := Option.isSome_iff_exists.mp (h a (List.mem_cons_self a tl))
    have htl := ih (fun x hx => h x (List.mem_cons_of_mem a hx))
    simp [optMapM, hb, htl, List.filterMap_cons]

/- Projection lemmas of add_child. -/

theorem add_child_dict_child (s c : Obj3D) (t : Int) (nm : String) :
    (add_child s c t nm).dict_child = dinsert nm (mkChildRecord c) s.dict_child := by
  by_cases h : t = 1 <;> simp [add_child, h]

theorem add_child_sum_one (s c : Obj3D) (nm : String) :
    (add_child s c 1 nm).dict_child_sum
      = dinsert nm (mkChildRecord c) s.dict_child_sum := by
  simp [add_child]

theorem add_child_res_zero (s c : Obj3D) (nm : String) :
    (add_child s c 0 nm).dict_child_res
      = dinsert nm (mkChildRecord c) s.dict_child_res := by
  simp [add_child]

theorem add_child_sum_zero (s c : Obj3D) (nm : String) :
    (add_child s c 0 nm).dict_child_sum = s.dict_child_sum := by
  simp [add_child]

theorem add_child_res_one (s c : Obj3D) (nm : String) :
    (add_child s c 1 nm).dict_child_res = s.dict_child_res := by
  simp [add_child]

/-- Claim C1: per axis, on a frame whose axis is centered (its own flag
equal to 1, regardless of the other two axes), resolving an index i at or
below zero reads that index map at the absolute value of i, and resolving
a positive index i whose entries at 0 and at i both exist returns the
entry at 0 plus the difference between the entry at 0 and the entry at i,
the reflection of the key i around the center entry; one conjunct for each
of get_o_to_d, get_o_to_w and get_o_to_h under its own flag only. -/
theorem c1_centered_index_resolution (st : Obj3D) (i : Int) :
    (st.d0_cen = 1 →
      (i ≤ 0 → get_o_to_d st i = st.d_o.lookup (abs i)) ∧
      (0 < i → ∀ b c, st.d_o.lookup 0 = some b → st.d_o.lookup i = some c →
        get_o_to_d st i = some (b + (b - c)))) ∧
    (st.w0_cen = 1 →
      (i ≤ 0 → get_o_to_w st i = st.w_o.lookup (abs i)) ∧
      (0 < i → ∀ b c, st.w_o.lookup 0 = some b → st.w_o.lookup i = some c →
        get_o_to_w st i = some (b + (b - c)))) ∧
    (st.h0_cen = 1 →
      (i ≤ 0 → get_o_to_h st i = st.h_o.lookup (abs i)) ∧
      (0 < i → ∀ b c, st.h_o.lookup 0 = some b → st.h_o.lookup i = some c →
        get_o_to_h st i = some (b + (b - c)))) := by
  refine ⟨?_, ?_, ?_⟩
  · intro hd
    constructor
    · intro hle
      simp [get_o_to_d, hd, hle]
    · intro hpos b c h0 hi
      simp [get_o_to_d, hd, hpos.not_le, h0, hi]
  · intro hw
    constructor
    · intro hle
      simp [get_o_to_w, hw, hle]
    · intro hpos b c h0 hi
      simp [get_o_to_w, hw, hpos.not_le, h0, hi]
  · intro hh
    constructor
    · intro hle
      simp [get_o_to_h, hh, hle]
    · intro hpos b c h0 hi
      simp [get_o_to_h, hh, hpos.not_le, h0, hi]

/-- Witness of C1 on a concrete frame where only the depth axis is
centered: the index 2 resolves to the reflection of its entry around the
center entry. -/
theorem c1_centered_index_resolution_witness :
    get_o_to_d mixedFrame 2 =
      some ((⟨1, 0, 0⟩ : Vec3) + ((⟨1, 0, 0⟩ : Vec3) - ⟨5, 0, 0⟩)) :=
  ((c1_centered_index_resolution mixedFrame 2).1 rfl).2 (by decide)
    ⟨1, 0, 0⟩ ⟨5, 0, 0⟩ rfl rfl

/-- Claim C2: a resolution whose requested index was never populated in the
map of that axis, neither as itself nor as its absolute value, produces no
vector at all: the method reports the missing key and returns nothing
rather than a zero vector or any default, so the single-axis operation
fails leaving nothing half-computed, the UndefinedIndex failure of the spec. -/
theorem c2_undefined_index_fails (st : Obj3D) (i : Int) :
    (st.d_o.lookup i = none → st.d_o.lookup (abs i) = none →
      get_o_to_d st i = none) ∧
    (st.w_o.lookup i = none → st.w_o.lookup (abs i) = none →
      get_o_to_w st i = none) ∧
    (st.h_o.lookup i = none → st.h_o.lookup (abs i) = none →
      get_o_to_h st i = none) := by
  refine ⟨?_, ?_, ?_⟩
  · intro h1 h2
    by_cases hcen : st.d0_cen = 1
    · by_cases hle : i ≤ 0
      · simp [get_o_to_d, hcen, hle, h2]
      · cases h0 : st.d_o.lookup 0 with
        | none => simp [get_o_to_d, hcen, hle, h0]
        | some b => simp [get_o_to_d, hcen, hle, h0, h1]
    · simp [get_o_to_d, hcen, h1]
  · intro h1 h2
    by_cases hcen : st.w0_cen = 1
    · by_cases hle : i ≤ 0
      · simp [get_o_to_w, hcen, hle, h2]
      · cases h0 : st.w_o.lookup 0 with
        | none => simp [get_o_to_w, hcen, hle, h0]
        | some b => simp [get_o_to_w, hcen, hle, h0, h1]
    · simp [get_o_to_w, hcen, h1]
  · intro h1 h2
    by_cases hcen : st.h0_cen = 1
    · by_cases hle : i ≤ 0
      · simp [get_o_to_h, hcen, hle, h2]
      · cases h0 : st.h_o.lookup 0 with
        | none => simp [get_o_to_h, hcen, hle, h0]
        | some b => simp [get_o_to_h, hcen, hle, h0, h1]
    · simp [get_o_to_h, hcen, h1]

/-- Witness of C2, the concrete scenario of the spec: requesting index 7 on
a frame whose depth map only defines the keys 0, 1 and 2 yields no vector. -/
theorem c2_undefined_index_fails_witness : get_o_to_d sparseFrame 7 = none :=
  (c2_undefined_index_fails sparseFrame 7).1 (by decide) (by decide)

/-- Claim C6: mirror symmetry around the center: on a centered axis with
entries at 0 and at i, for i at least 1, the resolutions at i and at minus
i add up to twice the resolution at 0; stated for the three axes. -/
theorem c6_mirror_symmetry (st : Obj3D) (i : Int) (hi : 1 ≤ i) :
    (st.d0_cen = 1 → ∀ b c, st.d_o.lookup 0 = some b →
      st.d_o.lookup i = some c →
      ∃ vp vn v0, get_o_to_d st i = some vp ∧ get_o_to_d st (-i) = some vn ∧
        get_o_to_d st 0 = some v0 ∧ vp + vn = v0 + v0) ∧
    (st.w0_cen = 1 → ∀ b c, st.w_o.lookup 0 = some b →
      st.w_o.lookup i = some c →
      ∃ vp vn v0, get_o_to_w st i = some vp ∧ get_o_to_w st (-i) = some vn ∧
        get_o_to_w st 0 = some v0 ∧ vp + vn = v0 + v0) ∧
    (st.h0_cen = 1 → ∀ b c, st.h_o.lookup 0 = some b →
      st.h_o.lookup i = some c →
      ∃ vp vn v0, get_o_to_h st i = some vp ∧ get_o_to_h st (-i) = some vn ∧
        get_o_to_h st 0 = some v0 ∧ vp + vn = v0 + v0) := by
  have hpos : 0 < i := by omega
  have hneg : -i ≤ 0 := by omega
  have habs : abs (-i) = i := by rw [abs_neg, abs_of_pos hpos]
  refine ⟨?_, ?_, ?_⟩
  · intro hcen b c h0 hii
    refine ⟨b + (b - c), c, b, ?_, ?_, ?_, Vec3.mirror_sum b c⟩
    · simp [get_o_to_d, hcen, hpos.not_le, h0, hii]
    · simp [get_o_to_d, hcen, hneg, habs, hii]
    · simp [get_o_to_d, hcen, h0]
  · intro hcen b c h0 hii
    refine ⟨b + (b - c), c, b, ?_, ?_, ?_, Vec3.mirror_sum b c⟩
    · simp [get_o_to_w, hcen, hpos.not_le, h0, hii]
    · simp [get_o_to_w, hcen, hneg, habs, hii]
    · simp [get_o_to_w, hcen, h0]
  · intro hcen b c h0 hii
    refine ⟨b + (b - c), c, b, ?_, ?_, ?_, Vec3.mirror_sum b c⟩
    · simp [get_o_to_h, hcen, hpos.not_le, h0, hii]
    · simp [get_o_to_h, hcen, hneg, habs, hii]
    · simp [get_o_to_h, hcen, h0]

/-- Witness of C6 on a concrete centered frame at the index 2. -/
theorem c6_mirror_symmetry_witness :
    ∃ vp vn v0, get_o_to_d cenFrame 2 = some vp ∧
      get_o_to_d cenFrame (-2) = some vn ∧
      get_o_to_d cenFrame 0 = some v0 ∧ vp + vn = v0 + v0 :=
  (c6_mirror_symmetry cenFrame 2 (by decide)).1 rfl ⟨1, 0, 0⟩ ⟨5, 0, 0⟩ rfl rfl

/-- Claim C7: make_parent on a parent with no registered child does
nothing: the state, its shape attribute included, comes back unchanged,
and this is a normal result rather than an error. -/
theorem c7_make_parent_no_children (st : Obj3D) (name : String)
    (h : st.dict_child = []) : make_parent st name = some st := by
  simp [make_parent, h]

/-- Witness of C7 on the bare test object. -/
theorem c7_make_parent_no_children_witness :
    make_parent baseObj ("placa base") = some baseObj :=
  c7_make_parent_no_children baseObj ("placa base") rfl

/-- Claim C5: registering a child under a name already present raises no
error and overwrites: the operation is total, and a lookup afterwards
returns the record of the child registered last, in the full table and in
whichever sub-table the second registration targetted. -/
theorem c5_reregistration_overwrites (parent c1 c2 : Obj3D) (s1 s2 : Int)
    (nm : String) :
    (get_child (add_child (add_child parent c1 s1 nm) c2 s2 nm)).lookup nm
      = some (mkChildRecord c2) ∧
    (s2 = 1 →
      (add_child (add_child parent c1 s1 nm) c2 s2 nm).dict_child_sum.lookup nm
        = some (mkChildRecord c2)) ∧
    (s2 ≠ 1 →
      (add_child (add_child parent c1 s1 nm) c2 s2 nm).dict_child_res.lookup nm
        = some (mkChildRecord c2)) := by
  refine ⟨?_, ?_, ?_⟩
  · rw [get_child, add_child_dict_child, lookup_dinsert_self]
  · intro h2
    subst h2
    rw [add_child_sum_one, lookup_dinsert_self]
  · intro h2
    have hres : (add_child (add_child parent c1 s1 nm) c2 s2 nm).dict_child_res
        = dinsert nm (mkChildRecord c2)
            (add_child parent c1 s1 nm).dict_child_res := by
      simp [add_child, h2]
    rw [hres, lookup_dinsert_self]

/-- Witness of C5: the name placa registered additively and then again
subtractively resolves to the latest record in the full table and in the
subtractive table. -/
theorem c5_reregistration_overwrites_witness :
    (get_child (add_child (add_child baseObj childA 1 ("placa")) childB 0
      ("placa"))).lookup ("placa") = some (mkChildRecord childB) ∧
    (add_child (add_child baseObj childA 1 ("placa")) childB 0
      ("placa")).dict_child_res.lookup ("placa") = some (mkChildRecord childB) :=
  ⟨(c5_reregistration_overwrites baseObj childA childB 1 0 ("placa")).1,
   (c5_reregistration_overwrites baseObj childA childB 1 0 ("placa")).2.2
     (by decide)⟩

/-- Claim C4: on a parent with at least one registered child, with the
additive and subtractive tables not both empty and every sub-table key
bound in the full table, make_parent stores as the parent shape exactly
the fused additive volumes cut by the fused subtractive volumes, each
volume being the shape the full child table records for that key. -/
theorem c4_make_parent_composition (st : Obj3D) (name : String)
    (hne : st.dict_child ≠ [])
    (hone : ¬(st.dict_child_sum = [] ∧ st.dict_child_res = []))
    (hsum : ∀ k ∈ st.dict_child_sum.map Prod.fst, (child_shp_of st k).isSome)
    (hres : ∀ k ∈ st.dict_child_res.map Prod.fst, (child_shp_of st k).isSome) :
    make_parent st name =
      some
        { st with
          shp :=
            Shape.cut
              (fuseshplist ((st.dict_child_sum.map Prod.fst).filterMap (child_shp_of st)))
              (fuseshplist ((st.dict_child_res.map Prod.fst).filterMap (child_shp_of st))) } := by
  have h1 : ¬ st.dict_child.length = 0 := by
    simpa [List.length_eq_zero] using hne
  have h2 : ¬ (st.dict_child_sum.length = 0 ∧ st.dict_child_res.length = 0) := by
    simpa [List.length_eq_zero] using hone
  have hsl : shp_sum_list st
      = some ((st.dict_child_sum.map Prod.fst).filterMap (child_shp_of st)) :=
    optMapM_eq_filterMap _ _ hsum
  have hrl : shp_res_list st
      = some ((st.dict_child_res.map Prod.fst).filterMap (child_shp_of st)) :=
    optMapM_eq_filterMap _ _ hres
  simp [make_parent, h1, h2, hsl, hrl]
  intro hA hB
  exact absurd (And.intro hA hB) hone

/-- Witness of C4 on a parent holding one additive and one subtractive
child. -/
theorem c4_make_parent_composition_witness :
    make_parent twoChildParent ("placa perforada") =
      some
        { twoChildParent with
          shp :=
            Shape.cut
              (fuseshplist ((twoChildParent.dict_child_sum.map Prod.fst).filterMap (child_shp_of twoChildParent)))
              (fuseshplist ((twoChildParent.dict_child_res.map Prod.fst).filterMap (child_shp_of twoChildParent))) } :=
  c4_make_parent_composition twoChildParent ("placa perforada")
    (by decide) (by decide) (by decide) (by decide)

/-- Claim C9: when the three anchor resolutions are defined, set_pos_o sets
pos_o to pos minus the sum of the three anchor offset vectors; the field
pos_o_adjust is untouched unless adjust equals 1, and the constructor
sets it to the zero vector at construction, so without an explicit adjustment it
remains V0; with adjust equal to 1 it records pos_o minus pos. -/
theorem c9_set_pos_o_origin (st : Obj3D) (adjust : Int) (vd vw vh : Vec3)
    (hd : get_o_to_d st st.pos_d = some vd)
    (hw : get_o_to_w st st.pos_w = some vw)
    (hh : get_o_to_h st st.pos_h = some vh) :
    (∃ st2, set_pos_o st adjust = some st2 ∧
      st2.pos_o = st.pos - (vd + vw + vh) ∧
      (adjust ≠ 1 → st2.pos_o_adjust = st.pos_o_adjust) ∧
      (adjust = 1 → st2.pos_o_adjust = st2.pos_o - st.pos)) ∧
    ∀ (pre : Obj3D) (ad aw ah : Option Vec3) (nm : String),
      (obj3D_init pre ad aw ah nm).pos_o_adjust = V0 := by
  constructor
  · by_cases ha : adjust = 1
    · refine ⟨{ st with pos_o := st.pos + -(vd + vw + vh),
                        pos_o_adjust := -(vd + vw + vh) }, ?_, ?_, ?_, ?_⟩
      · simp [set_pos_o, hd, hw, hh, ha]
      · show st.pos + -(vd + vw + vh) = st.pos - (vd + vw + vh)
        exact Vec3.add_neg_eq_sub _ _
      · intro hne
        exact absurd ha hne
      · intro _
        show -(vd + vw + vh) = (st.pos + -(vd + vw + vh)) - st.pos
        rw [Vec3.add_sub_cancel_left]
    · refine ⟨{ st with pos_o := st.pos + -(vd + vw + vh) }, ?_, ?_, ?_, ?_⟩
      · simp [set_pos_o, hd, hw, hh, ha]
      · show st.pos + -(vd + vw + vh) = st.pos - (vd + vw + vh)
        exact Vec3.add_neg_eq_sub _ _
      · intro _
        rfl
      · intro h1
        exact absurd h1 ha
  · intro pre ad aw ah nm
    rfl

/-- Witness of C9 on a frame anchored at the index 0 of every axis with no
adjustment requested. -/
theorem c9_set_pos_o_origin_witness :
    (∃ st2, set_pos_o anchorFrame 0 = some st2 ∧
      st2.pos_o = anchorFrame.pos
        - ((⟨1, 0, 0⟩ : Vec3) + ⟨0, 2, 0⟩ + ⟨0, 0, 3⟩) ∧
      ((0 : Int) ≠ 1 → st2.pos_o_adjust = anchorFrame.pos_o_adjust) ∧
      ((0 : Int) = 1 → st2.pos_o_adjust = st2.pos_o - anchorFrame.pos)) ∧
    ∀ (pre : Obj3D) (ad aw ah : Option Vec3) (nm : String),
      (obj3D_init pre ad aw ah nm).pos_o_adjust = V0 :=
  c9_set_pos_o_origin anchorFrame 0 ⟨1, 0, 0⟩ ⟨0, 2, 0⟩ ⟨0, 0, 3⟩ rfl rfl rfl

/-- Counterexample to claim C3: in the reference semantics of the Python
record, registering hChild and afterwards assigning the index 1 of its
depth map changes what the stored registration record refers to: reading
the record maps through the updated store differs from reading them
through the store as it was at registration time, so the stored record is
not an unchanging by-value snapshot. -/
theorem c3_snapshot_counterexample :
    ∃ r, (hAddChild hParent hChild 1 ("kid")).dict_child.lookup ("kid")
        = some r ∧
      recordMaps (setIndex hStore hChild.d_o 1 ⟨1, 0, 0⟩) r
        ≠ recordMaps hStore r := by
  refine ⟨{ child_d_o := 0, child_w_o := 1, child_h_o := 2,
            child_shp := Shape.prim 0 }, by decide, by decide⟩

/-- Claim C3 amended: the registration record written by add_child stores
the references of the three child index maps, not copies, so a later
in-place update of a child map through its reference changes the contents
the record of the parent dereferences to; only the shape is recorded as a
value. -/
theorem c3_registration_aliases_child_maps (σ : Nat → IndexMap) (p c : HObj)
    (s : Int) (nm : String) (k : Int) (v : Vec3) :
    ∃ r, (hAddChild p c s nm).dict_child.lookup nm = some r ∧
      r.child_d_o = c.d_o ∧ r.child_w_o = c.w_o ∧ r.child_h_o = c.h_o ∧
      r.child_shp = c.shp ∧
      setIndex σ c.d_o k v r.child_d_o = dinsert k v (σ c.d_o) := by
  refine ⟨{ child_d_o := c.d_o, child_w_o := c.w_o, child_h_o := c.h_o,
            child_shp := c.shp }, ?_, rfl, rfl, rfl, rfl, ?_⟩
  · by_cases hs : s = 1 <;> simp [hAddChild, hs, lookup_dinsert_self]
  · simp [setIndex]

/-- Counterexample to claim C8: constructing a frame with a supplied
zero-length depth axis is not rejected: the construction completes, the
depth axis comes out as the fallback vector of the backend, and the width
and height maps get their default entries as usual, so the offset maps are touched
and no degenerate-axis failure occurs. -/
theorem c8_zero_axis_counterexample :
    (obj3D_init baseObj (some V0) none none ("frame")).axis_d = ⟨1, 0, 0⟩ ∧
    (obj3D_init baseObj (some V0) none none ("frame")).w_o = [((0 : Int), V0)] ∧
    (obj3D_init baseObj (some V0) none none ("frame")).h_o = [((0 : Int), V0)] := by
  refine ⟨?_, rfl, rfl⟩
  show scaleTo V0 1 = ⟨1, 0, 0⟩
  simp [scaleTo]

/-- Claim C8 amended: a frame construction given an axis vector of zero
length is not rejected: the constructor has no degenerate-axis check, it
resets the three offset maps first and then normalizes the axis through
the backend scaleTo, which silently substitutes the fixed fallback vector
carrying the requested unit length in its first component, so construction
proceeds on the fallback axis with the depth map left empty. -/
theorem c8_zero_axis_fallback (pre : Obj3D) (v : Vec3) (aw ah : Option Vec3)
    (nm : String) (hv : v.normSq = 0) :
    (obj3D_init pre (some v) aw ah nm).axis_d = ⟨1, 0, 0⟩ ∧
    (obj3D_init pre (some v) aw ah nm).d_o = [] := by
  have hv0 : v = V0 := Vec3.normSq_eq_zero hv
  subst hv0
  have hsc : scaleTo V0 1 = ⟨1, 0, 0⟩ := by simp [scaleTo]
  rcases ah with _ | ah0 <;> rcases aw with _ | aw0 <;>
    exact ⟨by simp [obj3D_init, hsc], by simp [obj3D_init]⟩

/-- Witness of C8 amended at the zero vector. -/
theorem c8_zero_axis_fallback_witness :
    (obj3D_init baseObj (some V0) none none ("marco")).axis_d = ⟨1, 0, 0⟩ ∧
    (obj3D_init baseObj (some V0) none none ("marco")).d_o = [] :=
  c8_zero_axis_fallback baseObj V0 none none ("marco")
    (by simp [Vec3.normSq, V0])

/- Invariant lemmas of the child tables, used by claim C10. -/

theorem child_shp_of_isSome (st : Obj3D) (k : String)
    (h : (st.dict_child.lookup k).isSome) : (child_shp_of st k).isSome := by
  cases hx : st.dict_child.lookup k with
  | none => rw [hx] at h; simp at h
  | some r => simp [child_shp_of, hx]

theorem keyInv_of_empty (st : Obj3D) (hc : st.dict_child = [])
    (hs : st.dict_child_sum = []) (hr : st.dict_child_res = []) : KeyInv st := by
  intro k
  simp [hc, hs, hr, List.lookup]

theorem keyInv_add_child (st c : Obj3D) (s : Int) (nm : String)
    (h : KeyInv st) : KeyInv (add_child st c s nm) := by
  intro k
  by_cases hs : s = 1
  · by_cases hk : k = nm
    · subst hk
      simp [add_child, hs, lookup_dinsert_self]
    · simp [add_child, hs, lookup_dinsert_ne hk, h k]
  · by_cases hk : k = nm
    · subst hk
      simp [add_child, hs, lookup_dinsert_self]
    · simp [add_child, hs, lookup_dinsert_ne hk, h k]

theorem keyInv_applyOps (ops : List RegOp) :
    ∀ st : Obj3D, KeyInv st → KeyInv (applyOps st ops) := by
  induction ops with
  | nil => exact fun st h => h
  | cons o tl ih =>
    exact fun st h => ih _ (keyInv_add_child st o.child o.child_sum o.child_name h)

/-- Claim C10: after any sequence of add_child calls starting from empty
child tables, a name is bound in the full child table exactly when it is
bound in the additive or in the subtractive sub-table; moreover,
registering a name additively and then again subtractively leaves the name
bound in both sub-tables while the full table carries the latest record,
so the additive and the subtractive shape lists that make_parent builds
both contain the shape of the child registered last under that name. -/
theorem c10_child_table_keys (st0 : Obj3D) (ops : List RegOp)
    (hc : st0.dict_child = []) (hs : st0.dict_child_sum = [])
    (hr : st0.dict_child_res = []) :
    KeyInv (applyOps st0 ops) ∧
    ∀ (c1 c2 : Obj3D) (nm : String),
      ((add_child (add_child (applyOps st0 ops) c1 1 nm) c2 0 nm).dict_child_sum.lookup
        nm).isSome ∧
      (add_child (add_child (applyOps st0 ops) c1 1 nm) c2 0 nm).dict_child_res.lookup nm
        = some (mkChildRecord c2) ∧
      child_shp_of (add_child (add_child (applyOps st0 ops) c1 1 nm) c2 0 nm) nm
        = some c2.shp ∧
      ∃ lsum lres,
        shp_sum_list (add_child (add_child (applyOps st0 ops) c1 1 nm) c2 0 nm)
          = some lsum ∧
        c2.shp ∈ lsum ∧
        shp_res_list (add_child (add_child (applyOps st0 ops) c1 1 nm) c2 0 nm)
          = some lres ∧
        c2.shp ∈ lres := by
  have hinv : KeyInv (applyOps st0 ops) :=
    keyInv_applyOps ops st0 (keyInv_of_empty st0 hc hs hr)
  refine ⟨hinv, ?_⟩
  intro c1 c2 nm
  generalize hA : applyOps st0 ops = A at hinv ⊢
  have hinv2 : KeyInv (add_child (add_child A c1 1 nm) c2 0 nm) :=
    keyInv_add_child _ c2 0 nm (keyInv_add_child _ c1 1 nm hinv)
  have hsum_tab : (add_child (add_child A c1 1 nm) c2 0 nm).dict_child_sum
      = dinsert nm (mkChildRecord c1) A.dict_child_sum := by
    rw [add_child_sum_zero, add_child_sum_one]
  have hres_tab : (add_child (add_child A c1 1 nm) c2 0 nm).dict_child_res
      = dinsert nm (mkChildRecord c2) (add_child A c1 1 nm).dict_child_res :=
    add_child_res_zero _ c2 nm
  have hdict : (add_child (add_child A c1 1 nm) c2 0 nm).dict_child
      = dinsert nm (mkChildRecord c2) (add_child A c1 1 nm).dict_child :=
    add_child_dict_child _ c2 0 nm
  have h1 : ((add_child (add_child A c1 1 nm) c2 0 nm).dict_child_sum.lookup
      nm).isSome := by
    rw [hsum_tab, lookup_dinsert_self]
    rfl
  have h2 : (add_child (add_child A c1 1 nm) c2 0 nm).dict_child_res.lookup nm
      = some (mkChildRecord c2) := by
    rw [hres_tab, lookup_dinsert_self]
  have h3 : child_shp_of (add_child (add_child A c1 1 nm) c2 0 nm) nm
      = some c2.shp := by
    simp [child_shp_of, hdict, lookup_dinsert_self, mkChildRecord]
  have hall_sum : ∀ k ∈ (add_child (add_child A c1 1 nm) c2 0
        nm).dict_child_sum.map Prod.fst,
      (child_shp_of (add_child (add_child A c1 1 nm) c2 0 nm) k).isSome := by
    intro k hk
    exact child_shp_of_isSome _ k
      ((hinv2 k).mpr (Or.inl (lookup_isSome_of_mem_keys _ k hk)))
  have hall_res : ∀ k ∈ (add_child (add_child A c1 1 nm) c2 0
        nm).dict_child_res.map Prod.fst,
      (child_shp_of (add_child (add_child A c1 1 nm) c2 0 nm) k).isSome := by
    intro k hk
    exact child_shp_of_isSome _ k
      ((hinv2 k).mpr (Or.inr (lookup_isSome_of_mem_keys _ k hk)))
  have hmem_sum : nm ∈ (add_child (add_child A c1 1 nm) c2 0
      nm).dict_child_sum.map Prod.fst := by
    rw [hsum_tab]
    exact mem_keys_dinsert_self nm _ _
  have hmem_res : nm ∈ (add_child (add_child A c1 1 nm) c2 0
      nm).dict_child_res.map Prod.fst := by
    rw [hres_tab]
    exact mem_keys_dinsert_self nm _ _
  refine ⟨h1, h2, h3, _, _,
    optMapM_eq_filterMap _ _ hall_sum,
    List.mem_filterMap.mpr ⟨nm, hmem_sum, h3⟩,
    optMapM_eq_filterMap _ _ hall_res,
    List.mem_filterMap.mpr ⟨nm, hmem_res, h3⟩⟩

/-- Witness of C10 starting from the bare test object and the empty
sequence of registrations. -/
theorem c10_child_table_keys_witness :
    KeyInv (applyOps baseObj []) ∧
    ∀ (c1 c2 : Obj3D) (nm : String),
      ((add_child (add_child (applyOps baseObj []) c1 1 nm) c2 0
        nm).dict_child_sum.lookup nm).isSome ∧
      (add_child (add_child (applyOps baseObj []) c1 1 nm) c2 0
        nm).dict_child_res.lookup nm = some (mkChildRecord c2) ∧
      child_shp_of (add_child (add_child (applyOps baseObj []) c1 1 nm) c2 0 nm) nm
        = some c2.shp ∧
      ∃ lsum lres,
        shp_sum_list (add_child (add_child (applyOps baseObj []) c1 1 nm) c2 0 nm)
          = some lsum ∧
        c2.shp ∈ lsum ∧
        shp_res_list (add_child (add_child (applyOps baseObj []) c1 1 nm) c2 0 nm)
          = some lres ∧
        c2.shp ∈ lres :=
  c10_child_table_keys baseObj [] rfl rfl rfl
